import Mathlib

/-!
Shallow embedding of the github-stars-categorizer pipeline
(`src/services/cache.service.ts`, `src/services/gemini.service.ts`,
`src/services/analyzer.service.ts`, `src/config.ts`, `src/lib/errors.ts`),
together with theorems settling the specification claims.

Machine-level conventions: JavaScript strings are modelled as Lean
`String` (sequences of characters); `JSON.parse` is modelled by a small
executable JSON parser (`jsonParse`) restricted to the value forms the
claims exercise (objects, arrays, strings, booleans, null, and integer
numerals); wall-clock quantities (`Date.now`, ISO timestamps) are
modelled as the constant `0` / `""` since no claim depends on them.
-/

/-! ## Character and substring utilities (JS `String.prototype.includes`, regexes) -/

/-- The character `\x7b` (opening curly brace). -/
def openBrace : Char := Char.ofNat 123

/-- The character `\x7d` (closing curly brace). -/
def closeBrace : Char := Char.ofNat 125

/-- The double-quote character. -/
def quoteChar : Char := Char.ofNat 34

/-- The backslash character. -/
def backslashChar : Char := Char.ofNat 92

/-- Whether `needle` occurs at the head of `hay` (both as character lists). -/
def leadsWith : List Char → List Char → Bool
  | [], _ => true
  | _ :: _, [] => false
  | a :: as, b :: bs => a == b && leadsWith as bs

/-- Whether `needle` occurs contiguously anywhere in `hay`. -/
def subOccurs (needle : List Char) : List Char → Bool
  | [] => leadsWith needle []
  | c :: t => leadsWith needle (c :: t) || subOccurs needle t

/-- Model of JavaScript `hay.includes(needle)` (substring containment). -/
def containsSub (hay needle : String) : Bool :=
  subOccurs needle.data hay.data

/-! ## CacheService.slugify (`src/services/cache.service.ts` lines 128-130)

`name.replace(/\//g, "-").replace(/[^a-zA-Z0-9-]/g, "_")`: both regex
replaces act independently on each character. -/

/-- First replace: `/` becomes `-`. -/
def slugStep1 (c : Char) : Char :=
  if c == '/' then '-' else c

/-- A character matching the class `[a-zA-Z0-9-]`. -/
def isSafeChar (c : Char) : Bool :=
  (97 ≤ c.toNat && c.toNat ≤ 122) ||
  (65 ≤ c.toNat && c.toNat ≤ 90) ||
  (48 ≤ c.toNat && c.toNat ≤ 57) ||
  c == '-'

/-- Second replace: any character outside `[a-zA-Z0-9-]` becomes `_`. -/
def slugStep2 (c : Char) : Char :=
  if isSafeChar c then c else '_'

/-- `CacheService.slugify`: sanitize a repo full name into a cache file key. -/
def slugify (name : String) : String :=
  String.mk ((name.data.map slugStep1).map slugStep2)

/-! ## Category taxonomy (`src/config.ts`) -/

/-- `CategoryConfig` from `src/types.ts`. -/
structure CategoryConfig where
  name : String
  emoji : String
  description : String
deriving Repr, DecidableEq

/-- The `CATEGORIES` taxonomy from `src/config.ts`, verbatim. -/
def CATEGORIES : List CategoryConfig := [
  { name := "AI & LLM", emoji := "🤖",
    description := "AI/LLM libraries (LangChain, LlamaIndex), vector databases, RAG frameworks, AI model APIs. NOT workflow engines that support AI agents - those are Backend." },
  { name := "UI & Design Systems", emoji := "🎨",
    description := "Component libraries, design systems, Tailwind, Shadcn, animations" },
  { name := "Frontend Frameworks", emoji := "⚛️",
    description := "React, Next.js, Vue, Remix, Svelte, Deno Fresh" },
  { name := "Testing & QA", emoji := "🧪",
    description := "Cypress, Playwright, test frameworks, E2E tools" },
  { name := "Backend & Runtimes", emoji := "🚀",
    description := "Runtimes (Node, Deno, Bun), API frameworks, workflow/orchestration engines (Temporal, Inngest, Vercel Workflow), backend services, job queues." },
  { name := "DevOps & Containers", emoji := "🐳",
    description := "Docker, Kubernetes, containers, infrastructure, deployment" },
  { name := "CLI & Terminal", emoji := "💻",
    description := "Command-line tools, shell utilities, terminal emulators, prompts" },
  { name := "Code Quality", emoji := "✨",
    description := "Linters, formatters, static analysis, Prettier, ESLint, Biome" },
  { name := "Dev Tooling", emoji := "🛠️",
    description := "Build/bundle tools (Webpack, Vite, Turbo), package managers (pnpm), monorepo tools. NOT analytics, monitoring, or product tools." },
  { name := "Web Scraping & APIs", emoji := "🌐",
    description := "Web scrapers, HTTP clients, API tools, data extraction" },
  { name := "Editors & IDEs", emoji := "📝",
    description := "Code editors, IDEs, VSCode extensions, editor tools" },
  { name := "Media & Download", emoji := "📹",
    description := "Video downloaders, media tools, streaming tools" },
  { name := "Trading & Finance", emoji := "📈",
    description := "Trading bots, backtesting, technical analysis, finance tools" },
  { name := "Logging & Debug", emoji := "🔍",
    description := "Logging, debugging, network tools, monitoring, observability, product analytics (PostHog, Sentry, Mixpanel), APM, session recording." },
  { name := "Databases & Auth", emoji := "🔐",
    description := "Databases (Postgres, MongoDB, Neon, Prisma), ORMs, authentication libraries (NextAuth, Better Auth), session management" },
  { name := "Learning Resources", emoji := "📚",
    description := "Awesome lists, tutorials, courses (30-Days-Of-*, You-Dont-Know-JS), algorithm collections, cheatsheets, educational repos" },
  { name := "Utilities & Libraries", emoji := "🧰",
    description := "General-purpose utilities (Ramda, Lodash), data structures, type libraries (type-fest), converters (turndown), diagram tools (Mermaid)" },
  { name := "Other Tools", emoji := "📦",
    description := "Security tools, browsers, system utilities, misc tools that don't fit other categories" }
]

/-- `CATEGORY_NAMES` from `src/config.ts`. -/
def CATEGORY_NAMES : List String := CATEGORIES.map (fun c => c.name)

/-! ## A model of JSON values and of `JSON.parse` -/

/-- JSON values, with numbers restricted to integer numerals (the only
numbers appearing in this program's JSON payloads). -/
inductive Json where
  | null
  | bool (b : Bool)
  | num (n : Int)
  | str (s : String)
  | arr (elems : List Json)
  | obj (fields : List (String × Json))

/-- JSON whitespace (space, tab, line feed, carriage return). -/
def isJsonWs (c : Char) : Bool :=
  c == ' ' || c == Char.ofNat 9 || c == Char.ofNat 10 || c == Char.ofNat 13

/-- Drop leading JSON whitespace. -/
def skipWs (cs : List Char) : List Char :=
  cs.dropWhile isJsonWs

/-- Decode the four hexadecimal digits of a `\uXXXX` escape. -/
def hexVal (c : Char) : Option Nat :=
  if 48 ≤ c.toNat && c.toNat ≤ 57 then some (c.toNat - 48)
  else if 97 ≤ c.toNat && c.toNat ≤ 102 then some (c.toNat - 87)
  else if 65 ≤ c.toNat && c.toNat ≤ 70 then some (c.toNat - 55)
  else none

/-- Parse the body of a JSON string literal (the opening quote already
consumed), returning the decoded characters and the rest of the input;
the fuel argument bounds the number of consumed characters. -/
def parseStringBody : Nat → List Char → Option (List Char × List Char)
  | 0, _ => none
  | _, [] => none
  | Nat.succ fuel, c :: rest =>
    if c == quoteChar then some ([], rest)
    else if c == backslashChar then
      match rest with
      | [] => none
      | e :: rest2 =>
        let decoded : Option (Char × List Char) :=
          if e == quoteChar then some (quoteChar, rest2)
          else if e == backslashChar then some (backslashChar, rest2)
          else if e == '/' then some ('/', rest2)
          else if e == 'b' then some (Char.ofNat 8, rest2)
          else if e == 'f' then some (Char.ofNat 12, rest2)
          else if e == 'n' then some (Char.ofNat 10, rest2)
          else if e == 'r' then some (Char.ofNat 13, rest2)
          else if e == 't' then some (Char.ofNat 9, rest2)
          else if e == 'u' then
            match rest2 with
            | h1 :: h2 :: h3 :: h4 :: rest3 =>
              match hexVal h1, hexVal h2, hexVal h3, hexVal h4 with
              | some a, some b, some c3, some d =>
                some (Char.ofNat (((a * 16 + b) * 16 + c3) * 16 + d), rest3)
              | _, _, _, _ => none
            | _ => none
          else none
        match decoded with
        | some (ch, rest3) =>
          match parseStringBody fuel rest3 with
          | some (tail, restF) => some (ch :: tail, restF)
          | none => none
        | none => none
    else
      match parseStringBody fuel rest with
      | some (tail, restF) => some (c :: tail, restF)
      | none => none

/-- Digits of a numeral, most significant first. -/
def takeDigits (cs : List Char) : List Char × List Char :=
  (cs.takeWhile (fun c => 48 ≤ c.toNat && c.toNat ≤ 57),
   cs.dropWhile (fun c => 48 ≤ c.toNat && c.toNat ≤ 57))

/-- Numeric value of a digit list, most significant first. -/
def digitsVal (ds : List Char) : Nat :=
  ds.foldl (fun acc c => acc * 10 + (c.toNat - 48)) 0

/-- Parse a JSON integer numeral (optional minus sign, then digits). -/
def parseNumber (cs : List Char) : Option (Int × List Char) :=
  match cs with
  | c :: rest =>
    if c == '-' then
      let (ds, restF) := takeDigits rest
      if ds.isEmpty then none else some (-(digitsVal ds : Int), restF)
    else
      let (ds, restF) := takeDigits cs
      if ds.isEmpty then none else some ((digitsVal ds : Int), restF)
  | [] => none

mutual

/-- Parse a JSON value; `fuel` bounds the nesting depth. -/
def parseValue : Nat → List Char → Option (Json × List Char)
  | 0, _ => none
  | Nat.succ fuel, cs =>
    match skipWs cs with
    | [] => none
    | c :: rest =>
      if c == quoteChar then
        match parseStringBody (rest.length + 1) rest with
        | some (chars, restF) => some (Json.str (String.mk chars), restF)
        | none => none
      else if c == openBrace then
        parseMembers fuel rest true []
      else if c == '[' then
        parseElems fuel rest true []
      else if leadsWith ['t', 'r', 'u', 'e'] (c :: rest) then
        some (Json.bool true, (c :: rest).drop 4)
      else if leadsWith ['f', 'a', 'l', 's', 'e'] (c :: rest) then
        some (Json.bool false, (c :: rest).drop 5)
      else if leadsWith ['n', 'u', 'l', 'l'] (c :: rest) then
        some (Json.null, (c :: rest).drop 4)
      else
        match parseNumber (c :: rest) with
        | some (n, restF) => some (Json.num n, restF)
        | none => none

/-- Parse the members of a JSON object after the opening brace.
`first` is true when no member has been consumed yet. -/
def parseMembers : Nat → List Char → Bool → List (String × Json) →
    Option (Json × List Char)
  | 0, _, _, _ => none
  | Nat.succ fuel, cs, first, acc =>
    match skipWs cs with
    | [] => none
    | c :: rest =>
      if c == closeBrace && first then
        some (Json.obj acc.reverse, rest)
      else
        let afterSep : Option (List Char) :=
          if first then some (c :: rest)
          else if c == ',' then some rest
          else none
        match afterSep with
        | none =>
          if c == closeBrace then some (Json.obj acc.reverse, rest) else none
        | some cs2 =>
          match skipWs cs2 with
          | q :: rest2 =>
            if q == quoteChar then
              match parseStringBody (rest2.length + 1) rest2 with
              | some (keyChars, rest3) =>
                match skipWs rest3 with
                | colon :: rest4 =>
                  if colon == ':' then
                    match parseValue fuel rest4 with
                    | some (v, rest5) =>
                      parseMembers fuel rest5 false
                        ((String.mk keyChars, v) :: acc)
                    | none => none
                  else none
                | [] => none
              | none => none
            else none
          | [] => none

/-- Parse the elements of a JSON array after the opening bracket. -/
def parseElems : Nat → List Char → Bool → List Json →
    Option (Json × List Char)
  | 0, _, _, _ => none
  | Nat.succ fuel, cs, first, acc =>
    match skipWs cs with
    | [] => none
    | c :: rest =>
      if c == ']' && first then
        some (Json.arr acc.reverse, rest)
      else
        let afterSep : Option (List Char) :=
          if first then some (c :: rest)
          else if c == ',' then some rest
          else none
        match afterSep with
        | none =>
          if c == ']' then some (Json.arr acc.reverse, rest) else none
        | some cs2 =>
          match parseValue fuel cs2 with
          | some (v, rest2) => parseElems fuel rest2 false (v :: acc)
          | none => none

end

/-- Model of `JSON.parse`: parse one JSON value and require only
whitespace to remain. Returns `none` where `JSON.parse` would throw a
`SyntaxError`. -/
def jsonParse (s : String) : Option Json :=
  match parseValue (2 * s.length + 4) s.data with
  | some (j, rest) => if (skipWs rest).isEmpty then some j else none
  | none => none

/-- JavaScript property access `obj[key]` on a parsed JSON value
(`undefined` is `none`; with duplicate keys the last occurrence wins,
as in `JSON.parse`). -/
def getField (j : Json) (key : String) : Option Json :=
  match j with
  | Json.obj fields =>
    fields.foldl (fun acc kv => if kv.1 == key then some kv.2 else acc) none
  | _ => none

/-! ## Error model (`src/lib/errors.ts`) -/

/-- JavaScript error values as they occur in this program: either a
`GeminiAPIError` instance (with its `message`, `statusCode` and
`retryable` fields) or a generic error object carrying the fields
`isRetryableError` inspects (`message`, `status`, `error.code`,
`error.status`). -/
inductive JsError where
  | geminiApi (message : String) (statusCode : Option Nat) (retryable : Bool)
  | generic (message : String) (status : Option Nat)
      (errCode : Option Nat) (errStatus : Option String)
deriving Repr, DecidableEq

/-- JavaScript truthy selection `status || error?.code` on numbers. -/
def truthyOr (status errCode : Option Nat) : Option Nat :=
  match status with
  | some n => if n != 0 then some n else errCode
  | none => errCode

/-- `isRetryableError` from `src/lib/errors.ts` lines 122-145. -/
def isRetryableError : JsError → Bool
  | JsError.geminiApi _ _ r => r
  | JsError.generic message status errCode errStatus =>
    let code := truthyOr status errCode
    code == some 429 || code == some 503 ||
    errStatus == some "UNAVAILABLE" ||
    containsSub message "503" ||
    containsSub message "overloaded" ||
    containsSub message "UNAVAILABLE"

/-- `getErrorMessage` from `src/lib/errors.ts` lines 150-155 (both error
shapes are `Error` instances, so their `message` is returned). -/
def getErrorMessage : JsError → String
  | JsError.geminiApi m _ _ => m
  | JsError.generic m _ _ _ => m

/-! ## GeminiService (`src/services/gemini.service.ts`) -/

/-- `CategorizationResult` as produced by `JSON.parse` inside
`parseResponse`: only `category` is validated to be a string; the
`confidence` and `reasoning` properties carry whatever JSON values the
response held (possibly `undefined`, i.e. `none`). -/
structure CategorizationResult where
  category : String
  confidence : Option Json
  reasoning : Option Json

/-- The value of a successful `GeminiService.categorize` call. -/
structure GeminiResponse where
  categorization : CategorizationResult
  groundingChunks : Nat
  tokensUsed : Nat

/-- Failures raised inside `parseResponse`: a `GeminiAPIError` with a
retryable flag, or the raw `SyntaxError` thrown by `JSON.parse` itself. -/
inductive GeminiFailure where
  | apiError (message : String) (statusCode : Option Nat) (retryable : Bool)
  | rawParseError

/-- `GeminiService.extractErrorCode` (lines 200-206):
`apiError.status || apiError.error?.code`. A `GeminiAPIError` stores its
code in `statusCode`, so both inspected fields are `undefined` on it. -/
def extractErrorCode : JsError → Option Nat
  | JsError.geminiApi _ _ _ => none
  | JsError.generic _ status errCode _ => truthyOr status errCode

/-- The regex match `text.match(/\x7b[\s\S]*\x7d/)`: leftmost match with a
greedy middle, i.e. the substring from the first opening brace through
the last closing brace of the whole text (when the latter comes after
the former). -/
def extractJson (text : String) : Option String :=
  let cs := text.data
  match cs.findIdx? (fun c => c == openBrace) with
  | none => none
  | some i =>
    match cs.reverse.findIdx? (fun c => c == closeBrace) with
    | none => none
    | some jr =>
      let j := cs.length - 1 - jr
      if i < j then some (String.mk ((cs.drop i).take (j + 1 - i))) else none

/-- Whether the parsed `category` property fails the validation
`!c?.category || typeof c.category !== "string" || c.category.trim() === ""`. -/
def categoryFieldBad (j : Json) : Bool :=
  match getField j "category" with
  | some (Json.str s) => s.trim == ""
  | _ => true

/-- The predicate of the `CATEGORIES.find(...)` call in `parseResponse`
(lines 183-188): exact name, exact emoji-prefixed name, or substring
containment of the name in the (trimmed) returned category. -/
def categoryRuleMatch (categoryName : String) (cat : CategoryConfig) : Bool :=
  cat.name == categoryName ||
  (cat.emoji ++ " " ++ cat.name) == categoryName ||
  containsSub categoryName cat.name

/-- `GeminiService.parseResponse` (lines 165-198). -/
def parseResponse (text : String) : Except GeminiFailure CategorizationResult :=
  match extractJson text with
  | none => Except.error (GeminiFailure.apiError "No JSON found in response" none true)
  | some jsonStr =>
    match jsonParse jsonStr with
    | none => Except.error GeminiFailure.rawParseError
    | some j =>
      match getField j "category" with
      | some (Json.str s) =>
        if s.trim == "" then
          Except.error
            (GeminiFailure.apiError "Empty or invalid category in response" (some 503) true)
        else
          match CATEGORIES.find? (categoryRuleMatch s.trim) with
          | some matched =>
            Except.ok { category := matched.name,
                        confidence := getField j "confidence",
                        reasoning := getField j "reasoning" }
          | none =>
            Except.ok { category := "Other Tools",
                        confidence := getField j "confidence",
                        reasoning := some (Json.str
                          ("Original: " ++ s.trim ++ ". Fallback to Other Tools.")) }
      | _ =>
        Except.error
          (GeminiFailure.apiError "Empty or invalid category in response" (some 503) true)

/-- The wrapping performed by the inner catch of `categorize`
(lines 102-109): any thrown error becomes
`new GeminiAPIError("Gemini API error: " + msg, extractErrorCode(e), isRetryableError(e), e)`. -/
def wrapGeminiError (e : JsError) : JsError :=
  JsError.geminiApi ("Gemini API error: " ++ getErrorMessage e)
    (extractErrorCode e) (isRetryableError e)

/-- The `p-retry` loop of `categorize` (lines 53-123), on an abstract
per-attempt action (attempt numbers start at 1). `onFailedAttempt`
throws (aborting all remaining retries) only when the wrapped error's
message contains the substring "GeminiAPIError" and the error is not
retryable; otherwise the loop continues while retries remain. Returns
the outcome together with the number of attempts made. -/
def pRetryRun (attemptAction : Nat → Except JsError GeminiResponse) :
    Nat → Nat → Except JsError GeminiResponse × Nat
  | attemptNo, retriesLeft =>
    match attemptAction attemptNo with
    | Except.ok r => (Except.ok r, attemptNo)
    | Except.error e =>
      let w := wrapGeminiError e
      if containsSub (getErrorMessage w) "GeminiAPIError" && !isRetryableError w then
        (Except.error w, attemptNo)
      else
        match retriesLeft with
        | 0 => (Except.error w, attemptNo)
        | Nat.succ n => pRetryRun attemptAction (attemptNo + 1) n

/-- `GeminiService.categorize` (lines 48-129) with the Gemini call and
response parsing abstracted into a per-attempt action: runs the
`p-retry` wrapper with `retries := RETRY_MAX_ATTEMPTS` starting at
attempt 1, and propagates the final outcome to the caller unchanged. -/
def categorize (retryMaxAttempts : Nat)
    (attemptAction : Nat → Except JsError GeminiResponse) :
    Except JsError GeminiResponse × Nat :=
  pRetryRun attemptAction 1 retryMaxAttempts

/-! ## Data model (`src/types.ts`) and CacheService (`src/services/cache.service.ts`) -/

/-- `GitHubRepo` from `src/types.ts`. -/
structure GitHubRepo where
  full_name : String
  node_id : String
  description : Option String
  language : Option String
  topics : List String
  html_url : String

/-- `AnalysisResult` from `src/types.ts` (`failed` and `error` are
optional properties, absent unless set). -/
structure AnalysisResult where
  repo : GitHubRepo
  categorization : CategorizationResult
  webSearchCalls : Nat
  cached : Bool
  timestamp : String
  failed : Option Bool := none
  error : Option String := none

/-- The analysis cache directory, modelled as an association list from
file keys (`slugify name`) to stored records; a write for an existing
key shadows the old file, so lookups take the first (most recent)
matching entry. -/
abbrev AnalysisCache : Type := List (String × AnalysisResult)

/-- `CacheService.getAnalysis` (lines 87-99): look the slug up and, on a
hit, return the stored record with `cached` forced to `true`. -/
def getAnalysis (cache : AnalysisCache) (repoName : String) : Option AnalysisResult :=
  match List.find? (fun kv => kv.1 == slugify repoName) cache with
  | none => none
  | some kv => some { kv.2 with cached := true }

/-- `CacheService.saveAnalysis` (lines 104-107): write the record under
its repo's slug. -/
def saveAnalysis (cache : AnalysisCache) (result : AnalysisResult) : AnalysisCache :=
  (slugify result.repo.full_name, result) :: cache

/-! ## AnalyzerService (`src/services/analyzer.service.ts`) -/

/-- `AnalyzerStats` (lines 12-19). -/
structure AnalyzerStats where
  total : Nat
  analyzed : Nat
  cached : Nat
  failed : Nat
  totalTokens : Nat
  totalWebSearches : Nat
deriving Repr, DecidableEq

/-- The zero statistics record, as in the field initializer (lines 36-43). -/
def initStats : AnalyzerStats :=
  { total := 0, analyzed := 0, cached := 0, failed := 0,
    totalTokens := 0, totalWebSearches := 0 }

/-- `AnalyzerService.resetStats` (lines 178-187). -/
def resetStats (_s : AnalyzerStats) : AnalyzerStats := initStats

/-- `AnalyzerProgress` (lines 21-30); optional properties are `none`
when not passed. -/
structure AnalyzerProgress where
  current : Nat
  total : Nat
  repo : String
  cached : Bool
  category : Option String := none
  confidence : Option Json := none
  elapsedMs : Option Nat := none
  tokensUsed : Option Nat := none

/-- Which of the three terminal branches of `analyzeAll` an item took. -/
inductive ItemOutcome where
  | fromCache
  | freshAnalyzed
  | failedItem
deriving Repr, DecidableEq

/-- The mutable state touched while `analyzeAll` runs, plus observable
traces: the progress-callback invocations (`events`), the repos for
which `gemini.categorize` was invoked (`calls`), and the branch each
item took (`outcomes`). -/
structure RunState where
  stats : AnalyzerStats
  completed : Nat
  cache : AnalysisCache
  results : List AnalysisResult
  events : List AnalyzerProgress
  calls : List String
  outcomes : List ItemOutcome

/-- The per-item body of `analyzeAll` (lines 74-162). The classifier is
abstracted as `gemini : GitHubRepo → Except String GeminiResponse`,
where an error carries `getErrorMessage(error)`. Timestamps and elapsed
times are modelled as `""` and `0`. -/
def processRepo (gemini : GitHubRepo → Except String GeminiResponse)
    (skipCache : Bool) (st : RunState) (repo : GitHubRepo) : RunState :=
  match (if skipCache then none else getAnalysis st.cache repo.full_name) with
  | some cachedResult =>
    { st with
      stats := { st.stats with cached := st.stats.cached + 1 },
      completed := st.completed + 1,
      events := st.events ++ [{
        current := st.completed + 1,
        total := st.stats.total,
        repo := repo.full_name,
        cached := true,
        category := some cachedResult.categorization.category,
        confidence := cachedResult.categorization.confidence }],
      results := st.results ++ [cachedResult],
      outcomes := st.outcomes ++ [ItemOutcome.fromCache] }
  | none =>
    match gemini repo with
    | Except.ok resp =>
      let result : AnalysisResult :=
        { repo := repo,
          categorization := resp.categorization,
          webSearchCalls := resp.groundingChunks,
          cached := false,
          timestamp := "" }
      { st with
        stats := { st.stats with
          analyzed := st.stats.analyzed + 1,
          totalTokens := st.stats.totalTokens + resp.tokensUsed,
          totalWebSearches := st.stats.totalWebSearches + resp.groundingChunks },
        completed := st.completed + 1,
        cache := saveAnalysis st.cache result,
        events := st.events ++ [{
          current := st.completed + 1,
          total := st.stats.total,
          repo := repo.full_name,
          cached := false,
          category := some resp.categorization.category,
          confidence := resp.categorization.confidence,
          elapsedMs := some 0,
          tokensUsed := some resp.tokensUsed }],
        results := st.results ++ [result],
        calls := st.calls ++ [repo.full_name],
        outcomes := st.outcomes ++ [ItemOutcome.freshAnalyzed] }
    | Except.error errorMsg =>
      let result : AnalysisResult :=
        { repo := repo,
          categorization :=
            { category := "Uncategorized",
              confidence := some (Json.num 0),
              reasoning := some (Json.str ("Analysis failed: " ++ errorMsg)) },
          webSearchCalls := 0,
          cached := false,
          timestamp := "",
          failed := some true,
          error := some errorMsg }
      { st with
        stats := { st.stats with failed := st.stats.failed + 1 },
        completed := st.completed + 1,
        events := st.events ++ [{
          current := st.completed + 1,
          total := st.stats.total,
          repo := repo.full_name,
          cached := false }],
        results := st.results ++ [result],
        calls := st.calls ++ [repo.full_name],
        outcomes := st.outcomes ++ [ItemOutcome.failedItem] }

/-- `AnalyzerService.analyzeAll` (lines 63-166): set `stats.total` to
the batch size, then process every repo (sequentialized; the per-item
effects and counters are order independent). `stats0` and `cache0` are
the instance's statistics and cache state before the call. -/
def analyzeAll (gemini : GitHubRepo → Except String GeminiResponse)
    (repos : List GitHubRepo) (skipCache : Bool)
    (stats0 : AnalyzerStats) (cache0 : AnalysisCache) : RunState :=
  repos.foldl (processRepo gemini skipCache)
    { stats := { stats0 with total := repos.length },
      completed := 0,
      cache := cache0,
      results := [],
      events := [],
      calls := [],
      outcomes := [] }

/-! ## Helper lemmas about the per-item step -/

/-- The fresh-success record built by `analyzeAll` (lines 105-111). -/
def freshResult (rp : GitHubRepo) (resp : GeminiResponse) : AnalysisResult :=
  { repo := rp,
    categorization := resp.categorization,
    webSearchCalls := resp.groundingChunks,
    cached := false,
    timestamp := "" }

/-- The degraded record built by the catch branch of `analyzeAll`
(lines 143-155). -/
def degradedResult (rp : GitHubRepo) (errorMsg : String) : AnalysisResult :=
  { repo := rp,
    categorization :=
      { category := "Uncategorized",
        confidence := some (Json.num 0),
        reasoning := some (Json.str ("Analysis failed: " ++ errorMsg)) },
    webSearchCalls := 0,
    cached := false,
    timestamp := "",
    failed := some true,
    error := some errorMsg }

/-- One `processRepo` step appends exactly one outcome, one result and
one progress event, bumps `completed` and exactly one of the three
outcome counters, extends the cache only with fresh successful records,
and calls the classifier only on a cache miss. -/
theorem processRepo_spec (g : GitHubRepo → Except String GeminiResponse)
    (sk : Bool) (st : RunState) (rp : GitHubRepo) :
    ∃ (o : ItemOutcome) (r : AnalysisResult) (e : AnalyzerProgress)
      (nw : AnalysisCache) (nc : List String) (dTok dWeb : Nat),
      (processRepo g sk st rp).stats.total = st.stats.total ∧
      (processRepo g sk st rp).completed = st.completed + 1 ∧
      (processRepo g sk st rp).results = st.results ++ [r] ∧
      (processRepo g sk st rp).events = st.events ++ [e] ∧
      e.current = st.completed + 1 ∧
      e.total = st.stats.total ∧
      (processRepo g sk st rp).outcomes = st.outcomes ++ [o] ∧
      (processRepo g sk st rp).cache = nw ++ st.cache ∧
      (∀ kv ∈ nw, kv.2.failed = none ∧ kv.2.cached = false ∧
        ∃ resp, g rp = Except.ok resp ∧ kv.2.categorization = resp.categorization) ∧
      (processRepo g sk st rp).calls = st.calls ++ nc ∧
      (nc = [] ∨ (nc = [rp.full_name] ∧
        (sk = true ∨ getAnalysis st.cache rp.full_name = none))) ∧
      (processRepo g sk st rp).stats.analyzed =
        st.stats.analyzed + (if o = ItemOutcome.freshAnalyzed then 1 else 0) ∧
      (processRepo g sk st rp).stats.cached =
        st.stats.cached + (if o = ItemOutcome.fromCache then 1 else 0) ∧
      (processRepo g sk st rp).stats.failed =
        st.stats.failed + (if o = ItemOutcome.failedItem then 1 else 0) ∧
      (processRepo g sk st rp).stats.totalTokens = st.stats.totalTokens + dTok ∧
      (processRepo g sk st rp).stats.totalWebSearches =
        st.stats.totalWebSearches + dWeb ∧
      (o = ItemOutcome.fromCache → sk = false ∧
        getAnalysis st.cache rp.full_name = some r) ∧
      (o = ItemOutcome.freshAnalyzed →
        ∃ resp, g rp = Except.ok resp ∧ r = freshResult rp resp) ∧
      (o = ItemOutcome.failedItem →
        ∃ msg, g rp = Except.error msg ∧ r = degradedResult rp msg) := by
  cases hc : (if sk then none else getAnalysis st.cache rp.full_name) with
  | some cachedResult =>
    have hsk : sk = false ∧ getAnalysis st.cache rp.full_name = some cachedResult := by
      cases sk <;> simp_all
    refine ⟨ItemOutcome.fromCache, cachedResult,
      { current := st.completed + 1, total := st.stats.total,
        repo := rp.full_name, cached := true,
        category := some cachedResult.categorization.category,
        confidence := cachedResult.categorization.confidence },
      [], [], 0, 0, ?_⟩
    simp [processRepo, hc, hsk.1, hsk.2]
  | none =>
    have hmiss : sk = true ∨ getAnalysis st.cache rp.full_name = none := by
      cases sk <;> simp_all
    cases hg : g rp with
    | ok resp =>
      refine ⟨ItemOutcome.freshAnalyzed, freshResult rp resp,
        { current := st.completed + 1, total := st.stats.total,
          repo := rp.full_name, cached := false,
          category := some resp.categorization.category,
          confidence := resp.categorization.confidence,
          elapsedMs := some 0, tokensUsed := some resp.tokensUsed },
        [(slugify rp.full_name, freshResult rp resp)], [rp.full_name],
        resp.tokensUsed, resp.groundingChunks, ?_⟩
      simp [processRepo, hc, hg, hmiss, freshResult, saveAnalysis]
    | error msg =>
      refine ⟨ItemOutcome.failedItem, degradedResult rp msg,
        { current := st.completed + 1, total := st.stats.total,
          repo := rp.full_name, cached := false },
        [], [rp.full_name], 0, 0, ?_⟩
      simp [processRepo, hc, hg, hmiss, degradedResult]

/-- Number of occurrences of a branch tag in an outcome trace. -/
def countTag (t : ItemOutcome) : List ItemOutcome → Nat
  | [] => 0
  | x :: xs => (if x = t then 1 else 0) + countTag t xs

theorem countTag_nil (t : ItemOutcome) : countTag t [] = 0 := rfl

theorem countTag_cons (t x : ItemOutcome) (xs : List ItemOutcome) :
    countTag t (x :: xs) = (if x = t then 1 else 0) + countTag t xs := rfl

/-- Every outcome is exactly one of the three tags, so the three tag
counts partition the trace. -/
theorem countTag_partition (l : List ItemOutcome) :
    countTag ItemOutcome.freshAnalyzed l + countTag ItemOutcome.fromCache l +
      countTag ItemOutcome.failedItem l = l.length := by
  induction l with
  | nil => rfl
  | cons x xs ih =>
    cases x <;> simp [countTag_cons, ih] <;> omega

/-- The fold underlying `analyzeAll`, run from an arbitrary mid-run
state: `total` is untouched, `completed` grows by the batch size, one
result and one progress event are appended per item with callback
counters `completed+1, completed+2, ...`, the outcome trace grows by
one tag per item with the three outcome counters tracking the tag
counts, and the cache is extended (at the front) only with fresh
successful records. -/
theorem foldl_processRepo_spec (g : GitHubRepo → Except String GeminiResponse)
    (sk : Bool) (repos : List GitHubRepo) (st : RunState) :
    (repos.foldl (processRepo g sk) st).stats.total = st.stats.total ∧
    (repos.foldl (processRepo g sk) st).completed = st.completed + repos.length ∧
    (repos.foldl (processRepo g sk) st).results.length
      = st.results.length + repos.length ∧
    (repos.foldl (processRepo g sk) st).events.map (fun e => e.current)
      = st.events.map (fun e => e.current)
        ++ List.range' (st.completed + 1) repos.length ∧
    (∃ tags,
      (repos.foldl (processRepo g sk) st).outcomes = st.outcomes ++ tags ∧
      tags.length = repos.length ∧
      (repos.foldl (processRepo g sk) st).stats.analyzed
        = st.stats.analyzed + countTag ItemOutcome.freshAnalyzed tags ∧
      (repos.foldl (processRepo g sk) st).stats.cached
        = st.stats.cached + countTag ItemOutcome.fromCache tags ∧
      (repos.foldl (processRepo g sk) st).stats.failed
        = st.stats.failed + countTag ItemOutcome.failedItem tags) ∧
    (∃ nw,
      (repos.foldl (processRepo g sk) st).cache = nw ++ st.cache ∧
      ∀ kv ∈ nw, kv.2.failed = none ∧ kv.2.cached = false) ∧
    (∃ dTok dWeb,
      (repos.foldl (processRepo g sk) st).stats.totalTokens
        = st.stats.totalTokens + dTok ∧
      (repos.foldl (processRepo g sk) st).stats.totalWebSearches
        = st.stats.totalWebSearches + dWeb) := by
  induction repos generalizing st with
  | nil =>
    exact ⟨rfl, by simp, by simp, by simp, ⟨[], by simp [countTag_nil]⟩,
      ⟨[], by simp⟩, ⟨0, 0, by simp⟩⟩
  | cons rp rest ih =>
    obtain ⟨o, r, e, nw1, nc, dTok1, dWeb1, htot, hcomp, hres, hev, hevc, hevt,
      hout, hcache, hnw, hcalls, hnc, hana, hcach, hfail, htokens, hweb,
      hoC, hoF, hoX⟩ := processRepo_spec g sk st rp
    obtain ⟨itot, icomp, ires, iev, ⟨tags, iout, itlen, iana, icach, ifail⟩,
      ⟨nw2, icache, inw⟩, ⟨dTok2, dWeb2, itok, iweb⟩⟩
      := ih (processRepo g sk st rp)
    simp only [List.foldl_cons]
    refine ⟨by rw [itot, htot], by rw [icomp, hcomp]; simp [List.length_cons]; omega,
      by rw [ires, hres]; simp; omega, ?_, ?_, ?_, ?_⟩
    · rw [iev, hev, hcomp]
      have hr : List.range' (st.completed + 1) (rest.length + 1)
          = (st.completed + 1) :: List.range' (st.completed + 2) rest.length := by
        have := List.range'_succ (st.completed + 1) rest.length 1
        simpa using this
      simp only [List.length_cons, hr, List.map_append, List.map_cons,
        List.map_nil, hevc]
      simp
    · refine ⟨o :: tags, ?_, ?_, ?_, ?_, ?_⟩
      · rw [iout, hout]; simp
      · simp [itlen]
      · rw [iana, hana, countTag_cons]; omega
      · rw [icach, hcach, countTag_cons]; omega
      · rw [ifail, hfail, countTag_cons]; omega
    · refine ⟨nw2 ++ nw1, ?_, ?_⟩
      · rw [icache, hcache]; simp
      · intro kv hkv
        rcases List.mem_append.1 hkv with h | h
        · exact inw kv h
        · exact ⟨(hnw kv h).1, (hnw kv h).2.1⟩
    · exact ⟨dTok1 + dTok2, dWeb1 + dWeb2,
        by rw [itok, htokens]; omega, by rw [iweb, hweb]; omega⟩

/-- A record returned by `getAnalysis` always has `cached = true`. -/
theorem getAnalysis_cached_true (cache : AnalysisCache) (name : String)
    (r : AnalysisResult) (h : getAnalysis cache name = some r) : r.cached = true := by
  unfold getAnalysis at h
  cases hf : List.find? (fun kv => kv.1 == slugify name) cache with
  | none => rw [hf] at h; exact absurd h (by simp)
  | some kv => rw [hf] at h; cases h; rfl

/-- A record returned by `getAnalysis` is a stored record with only the
`cached` flag forced. -/
theorem getAnalysis_mem (cache : AnalysisCache) (name : String)
    (r : AnalysisResult) (h : getAnalysis cache name = some r) :
    ∃ kv ∈ cache, r = { kv.2 with cached := true } := by
  unfold getAnalysis at h
  cases hf : List.find? (fun kv => kv.1 == slugify name) cache with
  | none => rw [hf] at h; exact absurd h (by simp)
  | some kv =>
    rw [hf] at h
    exact ⟨kv, List.mem_of_find?_eq_some hf, by cases h; rfl⟩

/-- Cache lookups stay successful once the cache is extended at the
front (files are only added or overwritten, never removed). -/
theorem getAnalysis_mono (nw cache : AnalysisCache) (name : String)
    (h : (getAnalysis cache name).isSome) :
    (getAnalysis (nw ++ cache) name).isSome := by
  unfold getAnalysis at h ⊢
  rw [List.find?_append]
  cases hf : List.find? (fun kv => kv.1 == slugify name) nw with
  | some kv => simp [hf]
  | none =>
    cases hg : List.find? (fun kv => kv.1 == slugify name) cache with
    | none => rw [hg] at h; simp at h
    | some kv => simp [hf, hg]

/-- During the fold, an item whose lookup already succeeds in the
current cache never gets a classifier call. -/
theorem foldl_no_call (g : GitHubRepo → Except String GeminiResponse)
    (repos : List GitHubRepo) (st : RunState) (name : String)
    (h1 : name ∉ st.calls) (h2 : (getAnalysis st.cache name).isSome) :
    name ∉ (repos.foldl (processRepo g false) st).calls := by
  induction repos generalizing st with
  | nil => simpa using h1
  | cons rp rest ih =>
    obtain ⟨o, r, e, nw1, nc, dTok1, dWeb1, htot, hcomp, hres, hev, hevc, hevt,
      hout, hcache, hnw, hcalls, hnc, _, _, _, _, _, _, _, _⟩ :=
      processRepo_spec g false st rp
    simp only [List.foldl_cons]
    apply ih
    · rw [hcalls]
      intro hmem
      rcases List.mem_append.1 hmem with h | h
      · exact h1 h
      · rcases hnc with rfl | ⟨rfl, hmiss⟩
        · simp at h
        · rcases hmiss with hsk | hnone
          · exact absurd hsk (by simp)
          · have : name = rp.full_name := by simpa using h
            rw [this] at h2
            rw [hnone] at h2
            simp at h2
    · rw [hcache]
      exact getAnalysis_mono nw1 st.cache name h2

/-- C3 helper instantiation: the initial state of one `analyzeAll` call. -/
def initRunState (repos : List GitHubRepo) (stats0 : AnalyzerStats)
    (cache0 : AnalysisCache) : RunState :=
  { stats := { stats0 with total := repos.length },
    completed := 0, cache := cache0, results := [],
    events := [], calls := [], outcomes := [] }

theorem analyzeAll_eq_foldl (g : GitHubRepo → Except String GeminiResponse)
    (repos : List GitHubRepo) (sk : Bool) (stats0 : AnalyzerStats)
    (cache0 : AnalysisCache) :
    analyzeAll g repos sk stats0 cache0
      = repos.foldl (processRepo g sk) (initRunState repos stats0 cache0) := rfl

/-! ## Claim C3 -/

/-- C3: after one `analyzeAll` call on a freshly constructed (or
`resetStats`-ed) pipeline, every item has exactly one of the three
terminal outcomes `fromCache` / `freshAnalyzed` / `failedItem` (one tag
per item, each one of the three), the three outcome counters count the
tags exactly, and `stats.total = stats.analyzed + stats.cached +
stats.failed = batch size`. -/
theorem analyzeAll_outcome_partition
    (g : GitHubRepo → Except String GeminiResponse) (sk : Bool)
    (repos : List GitHubRepo) (cache0 : AnalysisCache) (s : AnalyzerStats) :
    resetStats s = initStats ∧
    (analyzeAll g repos sk initStats cache0).outcomes.length = repos.length ∧
    (∀ o ∈ (analyzeAll g repos sk initStats cache0).outcomes,
      o = ItemOutcome.fromCache ∨ o = ItemOutcome.freshAnalyzed ∨
      o = ItemOutcome.failedItem) ∧
    (analyzeAll g repos sk initStats cache0).stats.total = repos.length ∧
    (analyzeAll g repos sk initStats cache0).stats.cached
      = countTag ItemOutcome.fromCache (analyzeAll g repos sk initStats cache0).outcomes ∧
    (analyzeAll g repos sk initStats cache0).stats.analyzed
      = countTag ItemOutcome.freshAnalyzed (analyzeAll g repos sk initStats cache0).outcomes ∧
    (analyzeAll g repos sk initStats cache0).stats.failed
      = countTag ItemOutcome.failedItem (analyzeAll g repos sk initStats cache0).outcomes ∧
    (analyzeAll g repos sk initStats cache0).stats.total
      = (analyzeAll g repos sk initStats cache0).stats.analyzed
        + (analyzeAll g repos sk initStats cache0).stats.cached
        + (analyzeAll g repos sk initStats cache0).stats.failed := by
  obtain ⟨htot, hcomp, hres, hev, ⟨tags, hout, htlen, hana, hcach, hfail⟩, _, _⟩ :=
    foldl_processRepo_spec g sk repos (initRunState repos initStats cache0)
  rw [analyzeAll_eq_foldl]
  have houts : (repos.foldl (processRepo g sk) (initRunState repos initStats cache0)).outcomes
      = tags := by simpa [initRunState] using hout
  refine ⟨rfl, ?_, ?_, ?_, ?_, ?_, ?_, ?_⟩
  · rw [houts, htlen]
  · intro o _; cases o <;> simp
  · rw [htot]; rfl
  · rw [houts]; simpa [initRunState, initStats] using hcach
  · rw [houts]; simpa [initRunState, initStats] using hana
  · rw [houts]; simpa [initRunState, initStats] using hfail
  · rw [htot]
    have h3 := countTag_partition tags
    have e1 : (repos.foldl (processRepo g sk) (initRunState repos initStats cache0)).stats.analyzed
        = countTag ItemOutcome.freshAnalyzed tags := by
      simpa [initRunState, initStats] using hana
    have e2 : (repos.foldl (processRepo g sk) (initRunState repos initStats cache0)).stats.cached
        = countTag ItemOutcome.fromCache tags := by
      simpa [initRunState, initStats] using hcach
    have e3 : (repos.foldl (processRepo g sk) (initRunState repos initStats cache0)).stats.failed
        = countTag ItemOutcome.failedItem tags := by
      simpa [initRunState, initStats] using hfail
    rw [e1, e2, e3]
    simp [initRunState]
    omega

/-! ## Claim C9 -/

/-- C9: for a batch of `N` items, the progress callback fires exactly
`N` times, and the `current` values across the invocations are exactly
`1, 2, ..., N` (`List.range' 1 N`): strictly increasing, never above
`N`, and reaching `N` whenever the batch is nonempty. -/
theorem analyzeAll_progress_cardinality
    (g : GitHubRepo → Except String GeminiResponse) (sk : Bool)
    (repos : List GitHubRepo) (s0 : AnalyzerStats) (cache0 : AnalysisCache) :
    (analyzeAll g repos sk s0 cache0).events.length = repos.length ∧
    (analyzeAll g repos sk s0 cache0).events.map (fun e => e.current)
      = List.range' 1 repos.length ∧
    ((analyzeAll g repos sk s0 cache0).events.map (fun e => e.current)).Pairwise (· < ·) ∧
    (∀ e ∈ (analyzeAll g repos sk s0 cache0).events, e.current ≤ repos.length) ∧
    (0 < repos.length →
      ∃ e ∈ (analyzeAll g repos sk s0 cache0).events, e.current = repos.length) := by
  obtain ⟨htot, hcomp, hres, hev, _, _, _⟩ :=
    foldl_processRepo_spec g sk repos (initRunState repos s0 cache0)
  rw [analyzeAll_eq_foldl]
  have hmap : (repos.foldl (processRepo g sk) (initRunState repos s0 cache0)).events.map
      (fun e => e.current) = List.range' 1 repos.length := by
    simpa [initRunState] using hev
  refine ⟨?_, hmap, ?_, ?_, ?_⟩
  · have := congrArg List.length hmap
    simpa using this
  · rw [hmap]; exact List.pairwise_lt_range' 1 repos.length 1 (by omega)
  · intro e he
    have : e.current ∈ List.range' 1 repos.length := by
      rw [← hmap]; exact List.mem_map.2 ⟨e, he, rfl⟩
    have := List.mem_range'_1.1 this
    omega
  · intro hn
    have : repos.length ∈ List.range' 1 repos.length :=
      List.mem_range'_1.2 ⟨by omega, by omega⟩
    rw [← hmap] at this
    obtain ⟨e, he, hce⟩ := List.mem_map.1 this
    exact ⟨e, he, hce⟩

/-! ## Claim C10 -/

/-- A fixed sample repository used by the concrete run scenarios. -/
def repoA : GitHubRepo :=
  { full_name := "owner/alpha", node_id := "n1", description := none,
    language := none, topics := [], html_url := "" }

/-- A fixed successful classifier response used by the concrete run
scenarios. -/
def respFF : GeminiResponse :=
  { categorization :=
      { category := "Frontend Frameworks",
        confidence := some (Json.num 90),
        reasoning := some (Json.str "react") },
    groundingChunks := 2, tokensUsed := 100 }

/-- A classifier oracle that always succeeds with `respFF`. -/
def gFF : GitHubRepo → Except String GeminiResponse :=
  fun _ => Except.ok respFF

/-- First `analyzeAll` call of the two-call scenario. -/
def runOnce : RunState := analyzeAll gFF [repoA] false initStats []

/-- Second `analyzeAll` call on the same instance, without an
intervening `resetStats`: it starts from the statistics and cache left
by `runOnce`. -/
def runTwice : RunState := analyzeAll gFF [repoA] false runOnce.stats runOnce.cache

/-- C10: `analyzeAll` overwrites `stats.total` with the new batch size
but only ever adds to the other counters (`analyzed`, `cached`,
`failed` grow by this run's outcome-tag counts; `totalTokens` and
`totalWebSearches` by nonnegative deltas), so they accumulate across
calls on a reused instance; concretely, after a second call without
`resetStats` (same single repo: first run analyzes it, second hits the
cache) the identity `total = analyzed + cached + failed` fails. -/
theorem analyzeAll_stats_accumulate
    (g : GitHubRepo → Except String GeminiResponse) (sk : Bool)
    (repos : List GitHubRepo) (s0 : AnalyzerStats) (cache0 : AnalysisCache) :
    (analyzeAll g repos sk s0 cache0).stats.total = repos.length ∧
    (analyzeAll g repos sk s0 cache0).stats.analyzed
      = s0.analyzed + countTag ItemOutcome.freshAnalyzed
          (analyzeAll g repos sk s0 cache0).outcomes ∧
    (analyzeAll g repos sk s0 cache0).stats.cached
      = s0.cached + countTag ItemOutcome.fromCache
          (analyzeAll g repos sk s0 cache0).outcomes ∧
    (analyzeAll g repos sk s0 cache0).stats.failed
      = s0.failed + countTag ItemOutcome.failedItem
          (analyzeAll g repos sk s0 cache0).outcomes ∧
    (∃ dTok dWeb,
      (analyzeAll g repos sk s0 cache0).stats.totalTokens = s0.totalTokens + dTok ∧
      (analyzeAll g repos sk s0 cache0).stats.totalWebSearches
        = s0.totalWebSearches + dWeb) ∧
    runTwice.stats =
      { total := 1, analyzed := 1, cached := 1, failed := 0,
        totalTokens := 100, totalWebSearches := 2 } ∧
    runTwice.stats.total ≠
      runTwice.stats.analyzed + runTwice.stats.cached + runTwice.stats.failed := by
  obtain ⟨htot, hcomp, hres, hev, ⟨tags, hout, htlen, hana, hcach, hfail⟩,
    _, ⟨dTok, dWeb, hdt, hdw⟩⟩ :=
    foldl_processRepo_spec g sk repos (initRunState repos s0 cache0)
  rw [analyzeAll_eq_foldl]
  have houts : (repos.foldl (processRepo g sk) (initRunState repos s0 cache0)).outcomes
      = tags := by simpa [initRunState] using hout
  refine ⟨by rw [htot]; rfl, ?_, ?_, ?_, ⟨dTok, dWeb, ?_, ?_⟩, by rfl, by decide⟩
  · rw [houts]; simpa [initRunState] using hana
  · rw [houts]; simpa [initRunState] using hcach
  · rw [houts]; simpa [initRunState] using hfail
  · simpa [initRunState] using hdt
  · simpa [initRunState] using hdw

/-! ## Outcome/record correspondence -/

/-- The shape each produced record has, as a function of the branch its
item took: failure items get the degraded record (failed flag, sentinel
category, error message in the reasoning), fresh items get a
non-cached, non-failed record, cache hits get a record with the
cache-origin flag set. -/
def recordShape (p : ItemOutcome × AnalysisResult) : Prop :=
  (p.1 = ItemOutcome.failedItem →
    p.2.failed = some true ∧ p.2.cached = false ∧
    p.2.categorization.category = "Uncategorized" ∧
    ∃ msg, p.2.error = some msg ∧
      p.2.categorization.reasoning
        = some (Json.str ("Analysis failed: " ++ msg))) ∧
  (p.1 = ItemOutcome.freshAnalyzed → p.2.cached = false ∧ p.2.failed = none) ∧
  (p.1 = ItemOutcome.fromCache → p.2.cached = true)

/-- Along the fold, outcome tags and results stay aligned and every
produced pair satisfies `recordShape`. -/
theorem foldl_recordShape (g : GitHubRepo → Except String GeminiResponse)
    (sk : Bool) (repos : List GitHubRepo) (st : RunState)
    (hlen : st.outcomes.length = st.results.length)
    (hall : ∀ p ∈ st.outcomes.zip st.results, recordShape p) :
    (repos.foldl (processRepo g sk) st).outcomes.length
      = (repos.foldl (processRepo g sk) st).results.length ∧
    ∀ p ∈ (repos.foldl (processRepo g sk) st).outcomes.zip
        (repos.foldl (processRepo g sk) st).results, recordShape p := by
  induction repos generalizing st with
  | nil => exact ⟨hlen, hall⟩
  | cons rp rest ih =>
    obtain ⟨o, r, e, nw1, nc, dTok1, dWeb1, htot, hcomp, hres, hev, hevc, hevt,
      hout, hcache, hnw, hcalls, hnc, hana, hcach, hfail, htokens, hweb,
      hoC, hoF, hoX⟩ := processRepo_spec g sk st rp
    simp only [List.foldl_cons]
    apply ih
    · rw [hout, hres]; simp [hlen]
    · intro p hp
      rw [hout, hres, List.zip_append hlen] at hp
      rcases List.mem_append.1 hp with h | h
      · exact hall p h
      · have hpor : p = (o, r) := by simpa using h
        subst hpor
        refine ⟨?_, ?_, ?_⟩
        · intro ho
          obtain ⟨msg, _, hr⟩ := hoX ho
          subst hr
          exact ⟨rfl, rfl, rfl, msg, rfl, rfl⟩
        · intro ho
          obtain ⟨resp, _, hr⟩ := hoF ho
          subst hr
          exact ⟨rfl, rfl⟩
        · intro ho
          exact getAnalysis_cached_true st.cache rp.full_name r (hoC ho).2

/-! ## Claim C5 -/

/-- C5: item failures never escape `analyzeAll` (every item still
yields a record, so the batch continues), the failure is recorded in
the item's degraded record and in the `failed` counter, and no record
added to the cache during the run carries the `failed` flag (degraded
records are never persisted, so a future run re-attempts the item). -/
theorem analyzeAll_failure_isolation
    (g : GitHubRepo → Except String GeminiResponse) (sk : Bool)
    (repos : List GitHubRepo) (s0 : AnalyzerStats) (cache0 : AnalysisCache) :
    (analyzeAll g repos sk s0 cache0).results.length = repos.length ∧
    (analyzeAll g repos sk s0 cache0).stats.failed
      = s0.failed + countTag ItemOutcome.failedItem
          (analyzeAll g repos sk s0 cache0).outcomes ∧
    (∃ nw, (analyzeAll g repos sk s0 cache0).cache = nw ++ cache0 ∧
      ∀ kv ∈ nw, kv.2.failed = none ∧ kv.2.cached = false) ∧
    (∀ p ∈ (analyzeAll g repos sk s0 cache0).outcomes.zip
        (analyzeAll g repos sk s0 cache0).results,
      p.1 = ItemOutcome.failedItem →
        p.2.failed = some true ∧
        p.2.categorization.category = "Uncategorized" ∧
        ∃ msg, p.2.error = some msg ∧
          p.2.categorization.reasoning
            = some (Json.str ("Analysis failed: " ++ msg))) := by
  obtain ⟨htot, hcomp, hres, hev, ⟨tags, hout, htlen, hana, hcach, hfail⟩,
    ⟨nw, hcache, hnw⟩, _⟩ :=
    foldl_processRepo_spec g sk repos (initRunState repos s0 cache0)
  obtain ⟨hzlen, hzall⟩ :=
    foldl_recordShape g sk repos (initRunState repos s0 cache0)
      (by simp [initRunState]) (by simp [initRunState])
  rw [analyzeAll_eq_foldl]
  have houts : (repos.foldl (processRepo g sk) (initRunState repos s0 cache0)).outcomes
      = tags := by simpa [initRunState] using hout
  refine ⟨by simpa [initRunState] using hres, ?_, ?_, ?_⟩
  · rw [houts]; simpa [initRunState] using hfail
  · exact ⟨nw, by simpa [initRunState] using hcache, hnw⟩
  · intro p hp hfp
    obtain ⟨h1, _, _⟩ := hzall p hp
    obtain ⟨ha, hb, hc, msg, hd, he⟩ := h1 hfp
    exact ⟨ha, hc, msg, hd, he⟩

/-! ## Claim C6 -/

/-- C6: `getAnalysis` forces the cache-origin flag to `true` on every
returned record, leaving all other content as stored; for an item with
a pre-existing cache entry, `analyzeAll` with `skipCache = false`
returns exactly that stored record (classification content identical,
`cached = true`) without a single classifier call, and more generally
any repo name whose lookup succeeds in the initial cache never appears
among the classifier invocations of the whole batch. -/
theorem analyzeAll_cache_short_circuit
    (g : GitHubRepo → Except String GeminiResponse)
    (s0 : AnalyzerStats) (cache0 : AnalysisCache) :
    (∀ (cache : AnalysisCache) (name : String) (r : AnalysisResult),
      getAnalysis cache name = some r →
        r.cached = true ∧ ∃ kv ∈ cache, r = { kv.2 with cached := true }) ∧
    (∀ (x : GitHubRepo) (rec : AnalysisResult),
      getAnalysis cache0 x.full_name = some rec →
        (analyzeAll g [x] false s0 cache0).results = [rec] ∧
        (analyzeAll g [x] false s0 cache0).calls = [] ∧
        rec.cached = true ∧
        (analyzeAll g [x] false s0 cache0).stats.cached = s0.cached + 1) ∧
    (∀ (repos : List GitHubRepo) (name : String),
      (getAnalysis cache0 name).isSome →
        name ∉ (analyzeAll g repos false s0 cache0).calls) := by
  refine ⟨?_, ?_, ?_⟩
  · intro cache name r h
    exact ⟨getAnalysis_cached_true cache name r h, getAnalysis_mem cache name r h⟩
  · intro x rec h
    refine ⟨?_, ?_, getAnalysis_cached_true cache0 x.full_name rec h, ?_⟩ <;>
      simp [analyzeAll, processRepo, h]
  · intro repos name h
    rw [analyzeAll_eq_foldl]
    exact foldl_no_call g repos (initRunState repos s0 cache0) name
      (by simp [initRunState]) (by simpa [initRunState] using h)

/-- A stored cache record for `repoA` used by the C6 witness. -/
def recStored : AnalysisResult :=
  { repo := repoA,
    categorization :=
      { category := "Frontend Frameworks",
        confidence := some (Json.num 90),
        reasoning := some (Json.str "stored") },
    webSearchCalls := 1,
    cached := false,
    timestamp := "2024-01-01" }

/-- A one-entry cache holding `recStored` under `repoA`'s slug. -/
def cacheA : AnalysisCache := [(slugify "owner/alpha", recStored)]

/-- Witness for C6 at concrete inputs: with the pre-populated cache
`cacheA`, the single-item run returns the stored record with the
cache-origin flag forced and performs no classifier call. -/
theorem analyzeAll_cache_short_circuit_witness :
    (analyzeAll gFF [repoA] false initStats cacheA).results
      = [{ recStored with cached := true }] ∧
    (analyzeAll gFF [repoA] false initStats cacheA).calls = [] ∧
    ({ recStored with cached := true } : AnalysisResult).cached = true ∧
    (analyzeAll gFF [repoA] false initStats cacheA).stats.cached = initStats.cached + 1 := by
  have h := (analyzeAll_cache_short_circuit gFF initStats cacheA).2.1 repoA
    { recStored with cached := true } rfl
  exact ⟨h.1, h.2.1, h.2.2.1, h.2.2.2⟩

/-! ## Claim C1 -/

/-- Any successful `parseResponse` yields a taxonomy name (a matched
entry's name, or the fallback). -/
theorem parseResponse_ok_in_taxonomy (text : String) (r : CategorizationResult)
    (h : parseResponse text = Except.ok r) : r.category ∈ CATEGORY_NAMES := by
  unfold parseResponse at h
  split at h
  · exact Except.noConfusion h
  · split at h
    · exact Except.noConfusion h
    · split at h
      · split at h
        · exact Except.noConfusion h
        · split at h
          next matched hf =>
            cases h
            exact List.mem_map.2 ⟨matched, List.mem_of_find?_eq_some hf, rfl⟩
          next hf =>
            cases h
            show "Other Tools" ∈ CATEGORY_NAMES
            decide
      · exact Except.noConfusion h

/-- Along the fold, if every successful classifier outcome carries a
taxonomy category and every cached record does too, then every
non-failure record produced carries a taxonomy category, every failure
record carries the sentinel, and the cache invariant is preserved. -/
theorem foldl_category_inv (g : GitHubRepo → Except String GeminiResponse)
    (sk : Bool) (repos : List GitHubRepo)
    (hg : ∀ rp resp, g rp = Except.ok resp →
      resp.categorization.category ∈ CATEGORY_NAMES)
    (st : RunState)
    (hcache : ∀ kv ∈ st.cache, kv.2.categorization.category ∈ CATEGORY_NAMES)
    (hlen : st.outcomes.length = st.results.length)
    (hall : ∀ p ∈ st.outcomes.zip st.results,
      (p.1 ≠ ItemOutcome.failedItem →
        p.2.categorization.category ∈ CATEGORY_NAMES) ∧
      (p.1 = ItemOutcome.failedItem →
        p.2.categorization.category = "Uncategorized")) :
    (∀ kv ∈ (repos.foldl (processRepo g sk) st).cache,
      kv.2.categorization.category ∈ CATEGORY_NAMES) ∧
    ∀ p ∈ (repos.foldl (processRepo g sk) st).outcomes.zip
        (repos.foldl (processRepo g sk) st).results,
      (p.1 ≠ ItemOutcome.failedItem →
        p.2.categorization.category ∈ CATEGORY_NAMES) ∧
      (p.1 = ItemOutcome.failedItem →
        p.2.categorization.category = "Uncategorized") := by
  induction repos generalizing st with
  | nil => exact ⟨hcache, hall⟩
  | cons rp rest ih =>
    obtain ⟨o, r, e, nw1, nc, dTok1, dWeb1, htot, hcomp, hres, hev, hevc, hevt,
      hout, hcacheEq, hnw, hcalls, hnc, hana, hcach, hfail, htokens, hweb,
      hoC, hoF, hoX⟩ := processRepo_spec g sk st rp
    simp only [List.foldl_cons]
    apply ih
    · intro kv hkv
      rw [hcacheEq] at hkv
      rcases List.mem_append.1 hkv with h | h
      · obtain ⟨_, _, resp, hresp, hcat⟩ := hnw kv h
        rw [hcat]
        exact hg rp resp hresp
      · exact hcache kv h
    · rw [hout, hres]; simp [hlen]
    · intro p hp
      rw [hout, hres, List.zip_append hlen] at hp
      rcases List.mem_append.1 hp with h | h
      · exact hall p h
      · have hpor : p = (o, r) := by simpa using h
        subst hpor
        cases o with
        | failedItem =>
          obtain ⟨msg, _, hr⟩ := hoX rfl
          subst hr
          exact ⟨fun hne => absurd rfl hne, fun _ => rfl⟩
        | freshAnalyzed =>
          obtain ⟨resp, hresp, hr⟩ := hoF rfl
          subst hr
          exact ⟨fun _ => hg rp resp hresp, fun hfa => by simp at hfa⟩
        | fromCache =>
          obtain ⟨hsk, hget⟩ := hoC rfl
          obtain ⟨kv, hkv, hr⟩ := getAnalysis_mem st.cache rp.full_name r hget
          subst hr
          exact ⟨fun _ => hcache kv hkv, fun hfa => by simp at hfa⟩

/-- A classifier oracle that always fails with message "boom". -/
def gBoom : GitHubRepo → Except String GeminiResponse :=
  fun _ => Except.error "boom"

/-- Counterexample to C1 as stated: a per-item failure produces an
Analysis Record whose category is the fixed sentinel "Uncategorized",
which is not a name of the CATEGORIES taxonomy. -/
theorem analyzeAll_uncategorized_counterexample :
    (analyzeAll gBoom [repoA] false initStats []).results
      = [degradedResult repoA "boom"] ∧
    (degradedResult repoA "boom").categorization.category = "Uncategorized" ∧
    "Uncategorized" ∉ CATEGORY_NAMES := by
  refine ⟨by rfl, rfl, by decide⟩

/-- C1 as amended: successful `parseResponse` outcomes always carry a
taxonomy name; and in `analyzeAll`, provided every successful
classifier outcome carries a taxonomy name (as `parseResponse`
guarantees) and every pre-existing cache record does too, every record
produced from a cache hit or a fresh successful classification carries
a taxonomy name, while every per-item failure record carries the fixed
out-of-taxonomy sentinel "Uncategorized". -/
theorem analyzeAll_category_in_taxonomy
    (g : GitHubRepo → Except String GeminiResponse) (sk : Bool)
    (repos : List GitHubRepo) (s0 : AnalyzerStats) (cache0 : AnalysisCache)
    (hg : ∀ rp resp, g rp = Except.ok resp →
      resp.categorization.category ∈ CATEGORY_NAMES)
    (hc : ∀ kv ∈ cache0, kv.2.categorization.category ∈ CATEGORY_NAMES) :
    (∀ (text : String) (r : CategorizationResult),
      parseResponse text = Except.ok r → r.category ∈ CATEGORY_NAMES) ∧
    ∀ p ∈ (analyzeAll g repos sk s0 cache0).outcomes.zip
        (analyzeAll g repos sk s0 cache0).results,
      (p.1 ≠ ItemOutcome.failedItem →
        p.2.categorization.category ∈ CATEGORY_NAMES) ∧
      (p.1 = ItemOutcome.failedItem →
        p.2.categorization.category = "Uncategorized") := by
  refine ⟨parseResponse_ok_in_taxonomy, ?_⟩
  rw [analyzeAll_eq_foldl]
  exact (foldl_category_inv g sk repos hg (initRunState repos s0 cache0)
    (by simpa [initRunState] using hc) (by simp [initRunState])
    (by simp [initRunState])).2

/-- Witness for the amended C1 at concrete inputs: in a one-item run
whose classifier succeeds with "Frontend Frameworks", the produced
fresh record carries a taxonomy name. -/
theorem analyzeAll_category_in_taxonomy_witness :
    (freshResult repoA respFF).categorization.category ∈ CATEGORY_NAMES := by
  have h := analyzeAll_category_in_taxonomy gFF false [repoA] initStats []
    (by intro rp resp hresp
        cases hresp
        decide)
    (by intro kv hkv
        simp at hkv)
  have hz : (analyzeAll gFF [repoA] false initStats []).outcomes.zip
      (analyzeAll gFF [repoA] false initStats []).results
      = [(ItemOutcome.freshAnalyzed, freshResult repoA respFF)] := by
    with_unfolding_all rfl
  have hp := h.2 (ItemOutcome.freshAnalyzed, freshResult repoA respFF)
    (by rw [hz]; exact List.mem_singleton.2 rfl)
  exact hp.1 (by decide)

/-! ## Claim C4 -/

/-- Characterization of `List.find?`: a hit is the element at the first
index whose predicate holds. -/
theorem find?_first_index {α : Type} (p : α → Bool) (l : List α) (a : α)
    (h : l.find? p = some a) :
    ∃ i, ∃ hi : i < l.length, l.get ⟨i, hi⟩ = a ∧ p a = true ∧
      ∀ k, ∀ hk : k < l.length, k < i → p (l.get ⟨k, hk⟩) = false := by
  induction l with
  | nil => simp [List.find?] at h
  | cons b t ih =>
    cases hp : p b with
    | true =>
      rw [List.find?_cons_of_pos _ hp] at h
      cases h
      exact ⟨0, by simp, rfl, hp, fun k hk hk0 => absurd hk0 (by omega)⟩
    | false =>
      rw [List.find?_cons_of_neg _ (by simp [hp])] at h
      obtain ⟨i, hi, hget, hpa, hbefore⟩ := ih h
      refine ⟨i + 1, by simpa using hi, by simpa using hget, hpa, ?_⟩
      intro k hk hki
      cases k with
      | zero => simpa using hp
      | succ k2 =>
        have hk2 : k2 < t.length := by simpa using hk
        have := hbefore k2 hk2 (by omega)
        simpa using this

/-- The trimmed unmatched-category response used by the C4
counterexample: its `reasoning` field holds "model explanation". -/
def tUnmatched : String :=
  "\x7b\"category\":\"Nonexistent Stuff\",\"confidence\":5,\"reasoning\":\"model explanation\"\x7d"

/-- Counterexample to C4 as stated: when no taxonomy entry matches, the
note recording the original string is not appended to the model's
reasoning; the reasoning is replaced wholesale (the original reasoning
"model explanation" is gone from the result). -/
theorem parseResponse_reasoning_replaced :
    (∃ j, jsonParse tUnmatched = some j ∧
      getField j "reasoning" = some (Json.str "model explanation")) ∧
    ∃ r, parseResponse tUnmatched = Except.ok r ∧
      r.category = "Other Tools" ∧
      r.reasoning = some (Json.str
        "Original: Nonexistent Stuff. Fallback to Other Tools.") ∧
      ∀ s, r.reasoning = some (Json.str s) →
        containsSub s "model explanation" = false := by
  refine ⟨⟨Json.obj [("category", Json.str "Nonexistent Stuff"),
      ("confidence", Json.num 5),
      ("reasoning", Json.str "model explanation")], by rfl, by rfl⟩, ?_⟩
  refine ⟨{ category := "Other Tools",
            confidence := some (Json.num 5),
            reasoning := some (Json.str
              "Original: Nonexistent Stuff. Fallback to Other Tools.") },
    by with_unfolding_all rfl, rfl, rfl, ?_⟩
  intro s hs
  have hseq : s = "Original: Nonexistent Stuff. Fallback to Other Tools." := by
    injection hs with hs2
    injection hs2 with hs3
    exact hs3.symm
  rw [hseq]
  decide

/-- C4 as amended: the returned category string is trimmed and matched
against the taxonomy in declaration order by the three rules (exact
name; exact emoji-space-name; substring containment of the name); the
first entry satisfying any rule wins and the model's reasoning is kept;
if no entry matches, the category is forced to "Other Tools" and the
reasoning is REPLACED by a note recording the original unmatched
string; neither path is an error. -/
theorem parseResponse_normalization (text jsonStr catStr : String) (j : Json)
    (h1 : extractJson text = some jsonStr)
    (h2 : jsonParse jsonStr = some j)
    (h3 : getField j "category" = some (Json.str catStr))
    (h4 : catStr.trim ≠ "") :
    ∃ r, parseResponse text = Except.ok r ∧
      r.confidence = getField j "confidence" ∧
      ((∃ i, ∃ hi : i < CATEGORIES.length,
          categoryRuleMatch catStr.trim (CATEGORIES.get ⟨i, hi⟩) = true ∧
          (∀ k, ∀ hk : k < CATEGORIES.length, k < i →
            categoryRuleMatch catStr.trim (CATEGORIES.get ⟨k, hk⟩) = false) ∧
          r.category = (CATEGORIES.get ⟨i, hi⟩).name ∧
          r.reasoning = getField j "reasoning") ∨
       ((∀ cat ∈ CATEGORIES, categoryRuleMatch catStr.trim cat = false) ∧
         r.category = "Other Tools" ∧
         r.reasoning = some (Json.str
           ("Original: " ++ catStr.trim ++ ". Fallback to Other Tools.")))) := by
  unfold parseResponse
  simp only [h1, h2, h3]
  rw [if_neg (by simpa using h4)]
  cases hf : CATEGORIES.find? (categoryRuleMatch catStr.trim) with
  | some matched =>
    obtain ⟨i, hi, hget, hpa, hbefore⟩ :=
      find?_first_index (categoryRuleMatch catStr.trim) CATEGORIES matched hf
    refine ⟨{ category := matched.name,
              confidence := getField j "confidence",
              reasoning := getField j "reasoning" }, rfl, rfl, Or.inl ?_⟩
    exact ⟨i, hi, by rw [hget]; exact hpa, hbefore, by rw [hget], rfl⟩
  | none =>
    refine ⟨{ category := "Other Tools",
              confidence := getField j "confidence",
              reasoning := some (Json.str
                ("Original: " ++ catStr.trim ++ ". Fallback to Other Tools.")) },
      rfl, rfl, Or.inr ⟨?_, rfl, rfl⟩⟩
    intro cat hcat
    have := List.find?_eq_none.1 hf cat hcat
    simpa using this

/-- The emoji-prefixed response used by the C4 witness. -/
def tEmoji : String := "\x7b\"category\":\"🧪 Testing & QA\",\"confidence\":9\x7d"

/-- The parsed form of `tEmoji`. -/
def jEmoji : Json :=
  Json.obj [("category", Json.str "🧪 Testing & QA"), ("confidence", Json.num 9)]

/-- Witness for the amended C4 at a concrete input: an emoji-prefixed
category string normalizes to the matching taxonomy entry. -/
theorem parseResponse_normalization_witness :
    ∃ r, parseResponse tEmoji = Except.ok r ∧
      r.confidence = getField jEmoji "confidence" ∧
      ((∃ i, ∃ hi : i < CATEGORIES.length,
          categoryRuleMatch ("🧪 Testing & QA" : String).trim
            (CATEGORIES.get ⟨i, hi⟩) = true ∧
          (∀ k, ∀ hk : k < CATEGORIES.length, k < i →
            categoryRuleMatch ("🧪 Testing & QA" : String).trim
              (CATEGORIES.get ⟨k, hk⟩) = false) ∧
          r.category = (CATEGORIES.get ⟨i, hi⟩).name ∧
          r.reasoning = getField jEmoji "reasoning") ∨
       ((∀ cat ∈ CATEGORIES,
           categoryRuleMatch ("🧪 Testing & QA" : String).trim cat = false) ∧
         r.category = "Other Tools" ∧
         r.reasoning = some (Json.str
           ("Original: " ++ ("🧪 Testing & QA" : String).trim
             ++ ". Fallback to Other Tools.")))) :=
  parseResponse_normalization tEmoji tEmoji "🧪 Testing & QA" jEmoji
    (by with_unfolding_all rfl) (by with_unfolding_all rfl)
    (by with_unfolding_all rfl)
    (by
      have h : ("🧪 Testing & QA" : String).trim = "🧪 Testing & QA" := by
        with_unfolding_all rfl
      rw [h]; decide)

/-! ## Claim C7 -/

/-- Brace-depth scan used by the spec-side balanced extraction. -/
def balancedScan : List Char → Nat → List Char → Option (List Char)
  | [], _, _ => none
  | c :: rest, depth, acc =>
    if c == openBrace then balancedScan rest (depth + 1) (c :: acc)
    else if c == closeBrace then
      if depth == 1 then some (c :: acc).reverse
      else balancedScan rest (depth - 1) (c :: acc)
    else balancedScan rest depth (c :: acc)

/-- Modelled from the spec: "Extract the first balanced `(open brace)
... (close brace)` JSON object substring from the raw response text" —
the substring from the first opening brace to its matching (depth
balanced) closing brace. The code's `extractJson` (greedy regex) is
compared against this. -/
def extractFirstBalanced (text : String) : Option String :=
  match text.data.dropWhile (fun c => !(c == openBrace)) with
  | [] => none
  | cs => (balancedScan cs 0 []).map String.mk

/-- The response text with a stray closing brace after a well-formed
object, separating the greedy extraction from the balanced one. -/
def tStray : String :=
  "\x7b\"category\":\"AI & LLM\",\"confidence\":85,\"reasoning\":\"r\"\x7d \x7d"

/-- The well-formed balanced prefix object inside `tStray`. -/
def tStrayGood : String :=
  "\x7b\"category\":\"AI & LLM\",\"confidence\":85,\"reasoning\":\"r\"\x7d"

/-- Counterexample to C7 as stated: `parseResponse` does not extract
the first balanced brace substring. On `tStray` the first balanced
substring exists and parses to a valid categorization, but the code's
greedy regex grabs through the stray trailing brace, `JSON.parse`
throws, and `parseResponse` fails with the raw parse error (not a
flagged retryable API error). -/
theorem parseResponse_greedy_counterexample :
    extractFirstBalanced tStray = some tStrayGood ∧
    (∃ r, parseResponse tStrayGood = Except.ok r ∧ r.category = "AI & LLM") ∧
    extractJson tStray = some (tStrayGood ++ " \x7d") ∧
    parseResponse tStray = Except.error GeminiFailure.rawParseError := by
  refine ⟨by with_unfolding_all rfl, ?_, by with_unfolding_all rfl,
    by with_unfolding_all rfl⟩
  exact ⟨{ category := "AI & LLM",
           confidence := some (Json.num 85),
           reasoning := some (Json.str "r") },
    by with_unfolding_all rfl, rfl⟩

/-- C7 as amended: `parseResponse` extracts the substring from the
first opening brace through the last closing brace of the text (the
greedy regex), not the first balanced one; if no such substring exists
it fails with "No JSON found in response" flagged retryable; if the
substring is not valid JSON the raw `JSON.parse` error propagates
(unflagged); if the parsed `category` field is missing, non-string, or
blank after trimming, it fails with "Empty or invalid category in
response" flagged retryable (status 503). -/
theorem parseResponse_failure_modes :
    (∀ text : String, extractJson text = none →
      parseResponse text
        = Except.error (GeminiFailure.apiError "No JSON found in response" none true)) ∧
    (∀ text jsonStr : String, extractJson text = some jsonStr →
      jsonParse jsonStr = none →
      parseResponse text = Except.error GeminiFailure.rawParseError) ∧
    (∀ (text jsonStr : String) (j : Json), extractJson text = some jsonStr →
      jsonParse jsonStr = some j → categoryFieldBad j = true →
      parseResponse text = Except.error
        (GeminiFailure.apiError "Empty or invalid category in response" (some 503) true)) := by
  refine ⟨?_, ?_, ?_⟩
  · intro text h
    unfold parseResponse
    simp only [h]
  · intro text jsonStr h1 h2
    unfold parseResponse
    simp only [h1, h2]
  · intro text jsonStr j h1 h2 h3
    unfold parseResponse
    simp only [h1, h2]
    unfold categoryFieldBad at h3
    cases hcf : getField j "category" with
    | none => simp only [hcf]
    | some v =>
      rw [hcf] at h3
      cases v with
      | str s =>
        simp only [hcf]
        rw [if_pos (by simpa using h3)]
      | null => simp only [hcf]
      | bool b => simp only [hcf]
      | num n => simp only [hcf]
      | arr xs => simp only [hcf]
      | obj fs => simp only [hcf]

/-- A response with a numeric `category` field, used by the C7 witness. -/
def tNumCat : String := "\x7b\"category\":42\x7d"

/-- Witness for the amended C7 at concrete inputs: each of the three
failure modes realized. -/
theorem parseResponse_failure_modes_witness :
    parseResponse "no json here"
      = Except.error (GeminiFailure.apiError "No JSON found in response" none true) ∧
    parseResponse tStray = Except.error GeminiFailure.rawParseError ∧
    parseResponse tNumCat = Except.error
      (GeminiFailure.apiError "Empty or invalid category in response" (some 503) true) :=
  ⟨parseResponse_failure_modes.1 "no json here" (by with_unfolding_all rfl),
   parseResponse_failure_modes.2.1 tStray (tStrayGood ++ " \x7d")
     (by with_unfolding_all rfl) (by with_unfolding_all rfl),
   parseResponse_failure_modes.2.2 tNumCat tNumCat
     (Json.obj [("category", Json.num 42)])
     (by with_unfolding_all rfl) (by with_unfolding_all rfl) (by with_unfolding_all rfl)⟩

/-! ## Claim C8 -/

/-- Counterexample to C8 as stated: the key derivation is not injective
on item identities — the distinct names "a/b" and "a-b" share the
storage key "a-b" (the slash is replaced by a hyphen, which is itself a
legal name character). -/
theorem slugify_collision :
    slugify "a/b" = slugify "a-b" ∧ "a/b" ≠ "a-b" ∧ slugify "a/b" = "a-b" :=
  ⟨by decide, by decide, by decide⟩

/-- C8 as amended: the key derivation is a deterministic per-character
map (so keys are stable across runs), it preserves every character of
the safe class `[a-zA-Z0-9-]` — in particular it is case-preserving —
and it emits only characters from that class plus the underscore; but
it is NOT injective (see the collision counterexample). -/
theorem slugify_props (name : String) :
    (slugify name).data = name.data.map (fun c => slugStep2 (slugStep1 c)) ∧
    (slugify name).length = name.length ∧
    (∀ c ∈ (slugify name).data, isSafeChar c = true ∨ c = '_') ∧
    (∀ c, isSafeChar c = true → slugStep2 (slugStep1 c) = c) := by
  refine ⟨by simp only [slugify, List.map_map]; rfl,
    by simp only [slugify, String.length, List.length_map], ?_, ?_⟩
  · intro c hc
    simp only [slugify, String.mk, List.map_map] at hc
    obtain ⟨x, _, hx⟩ := List.mem_map.1 hc
    rw [← hx]
    by_cases hs : isSafeChar (slugStep1 x)
    · exact Or.inl (by simp [slugStep2, hs])
    · exact Or.inr (by simp [slugStep2, hs])
  · intro c hc
    have hcs : ¬(c == '/') = true := by
      intro h
      rw [show c = '/' from by simpa using h] at hc
      exact absurd hc (by decide)
    simp [slugStep1, hcs, slugStep2, hc]

/-- Witness for the amended C8 at a concrete input. -/
theorem slugify_props_witness :
    (slugify "owner/Repo.Name").data
      = ("owner/Repo.Name" : String).data.map (fun c => slugStep2 (slugStep1 c)) ∧
    (slugify "owner/Repo.Name").length = ("owner/Repo.Name" : String).length ∧
    slugify "owner/Repo.Name" = "owner-Repo_Name" := by
  have h := slugify_props "owner/Repo.Name"
  exact ⟨h.1, h.2.1, by decide⟩

/-! ## Claim C2 -/

/-- The non-retryable error of the C2 scenario: a plain error whose
message is "invalid request", with no status code. -/
def invalidReqError : JsError := JsError.generic "invalid request" none none none

/-- C2 is refuted by the code: the wrapped error's message is
"Gemini API error: invalid request" — the class name "GeminiAPIError"
appears only in the error's `name` property, never in its `message` —
so the abort guard `error.message.includes("GeminiAPIError")` in
`onFailedAttempt` never fires, and a non-retryable failure is retried
through all remaining attempts: with `RETRY_MAX_ATTEMPTS = 5` (the
default), `categorize` makes 6 attempts instead of aborting after 1,
and only then propagates the wrapped non-retryable error. -/
theorem categorize_nonretryable_not_aborted :
    isRetryableError invalidReqError = false ∧
    isRetryableError (wrapGeminiError invalidReqError) = false ∧
    getErrorMessage (wrapGeminiError invalidReqError)
      = "Gemini API error: invalid request" ∧
    containsSub (getErrorMessage (wrapGeminiError invalidReqError))
      "GeminiAPIError" = false ∧
    categorize 5 (fun _ => Except.error invalidReqError)
      = (Except.error (wrapGeminiError invalidReqError), 6) :=
  ⟨by decide, by decide, by decide, by decide, by with_unfolding_all rfl⟩

/-- Witness for C3 at concrete inputs: a one-item run (fresh success)
satisfies the stats identity. -/
theorem analyzeAll_outcome_partition_witness :
    (analyzeAll gFF [repoA] false initStats []).stats.total
      = (analyzeAll gFF [repoA] false initStats []).stats.analyzed
        + (analyzeAll gFF [repoA] false initStats []).stats.cached
        + (analyzeAll gFF [repoA] false initStats []).stats.failed :=
  (analyzeAll_outcome_partition gFF false [repoA] [] initStats).2.2.2.2.2.2.2

/-- Witness for C5 at concrete inputs: a one-item failing run still
yields one record and counts the failure. -/
theorem analyzeAll_failure_isolation_witness :
    (analyzeAll gBoom [repoA] false initStats []).results.length = 1 ∧
    (analyzeAll gBoom [repoA] false initStats []).stats.failed
      = initStats.failed + countTag ItemOutcome.failedItem
          (analyzeAll gBoom [repoA] false initStats []).outcomes := by
  have h := analyzeAll_failure_isolation gBoom false [repoA] initStats []
  exact ⟨h.1, h.2.1⟩

/-- Witness for C9 at concrete inputs: a one-item run fires exactly one
progress event, with counter sequence `[1]`. -/
theorem analyzeAll_progress_cardinality_witness :
    (analyzeAll gFF [repoA] false initStats []).events.length = 1 ∧
    (analyzeAll gFF [repoA] false initStats []).events.map (fun e => e.current)
      = List.range' 1 1 := by
  have h := analyzeAll_progress_cardinality gFF false [repoA] initStats []
  exact ⟨h.1, h.2.1⟩
